import Mathlib

/-!
Verification of the Miscraft write-behind persistence pipeline
(`src/db.c` together with the growable command ring declared in
`src/ring.h`).

The embedding below translates the C sources into Lean:

* `RingEntryType`, `RingEntry`, `Ring` mirror the declarations in
  `src/ring.h`.  The repository ships only the header for the ring, so the
  bodies of `ring_put`, `ring_get`, `ring_grow`, `ring_size`, … are
  modelled from the specification of the growable circular buffer
  (capacity doubling on full, copy of the pending entries to index 0 with
  `start = 0`, `end = size`, FIFO pop at `start`, append at `end`, both
  advancing modulo `capacity`).

* The SQLite-backed store is modelled relationally: each table is a list
  of rows, `insert or replace` under a unique index removes the rows with
  the same key and appends the new row, `delete … where …` filters, and a
  point query is `List.find?`.

* Every `db_*` entry point of `src/db.c` is translated as a pure function
  on a `DbGlobal` state (the file-scope statics of `db.c`); in addition it
  returns the list of store-adapter and read-mutex events it performs, so
  that properties about "no store call happens" or "reads run under the
  read mutex" are statable.  Thread scheduling is modelled by the order in
  which producer pushes complete under the single queue mutex: a run of
  the system is a list of ring entries in completed-push order.
-/

namespace Miscraft

/-! ### Ring entries (`src/ring.h`) -/

/-- Model of `RingEntryType` from `src/ring.h`. -/
inductive RingEntryType where
  | BLOCK
  | LIGHT
  | KEY
  | COMMIT
  | EXIT
  | BLOCK_DAMAGE
  | BLOCK_DAMAGE_TRIM
deriving DecidableEq, Repr

/-- Model of `RingEntry` from `src/ring.h`: a tagged command with payload fields. -/
structure RingEntry where
  type : RingEntryType
  p : Int
  q : Int
  x : Int
  y : Int
  z : Int
  w : Int
  key : Int
deriving DecidableEq, Repr

instance : Inhabited RingEntry :=
  ⟨⟨RingEntryType.BLOCK, 0, 0, 0, 0, 0, 0, 0⟩⟩

/-- Model of `Ring` from `src/ring.h`: a growable circular buffer.  The backing
array is modelled as a total function from slot index to entry. -/
structure Ring where
  capacity : Nat
  start : Nat
  stop : Nat
  data : Nat → RingEntry

/-- Modelled from the spec: `ring_alloc` (body not in `src/`); a fresh
ring with the given capacity and `start = end = 0`. -/
def ring_alloc (capacity : Nat) : Ring :=
  ⟨capacity, 0, 0, fun _ => default⟩

/-- Modelled from the spec: `ring_size` (body not in `src/`);
`size = (end - start) mod capacity`, computed without underflow. -/
def ring_size (r : Ring) : Nat :=
  (r.stop + r.capacity - r.start) % r.capacity

/-- Modelled from the spec: `ring_empty` (body not in `src/`); the ring is
empty when `start = end`. -/
def ring_empty (r : Ring) : Bool :=
  decide (r.start = r.stop)

/-- Modelled from the spec: `ring_full` (body not in `src/`); the ring is
full when advancing `end` by one slot would collide with `start`. -/
def ring_full (r : Ring) : Bool :=
  decide ((r.stop + 1) % r.capacity = r.start)

/-- Modelled from the spec: `ring_grow` (body not in `src/`); doubles the
capacity and copies all pending entries starting at index 0, resetting
`start = 0` and `end = size`. -/
def ring_grow (r : Ring) : Ring :=
  ⟨2 * r.capacity, 0, ring_size r,
    fun i => if i < ring_size r then r.data ((r.start + i) % r.capacity) else default⟩

/-- The append step of `ring_put`: write the entry at `end` and advance
`end` modulo the capacity. -/
def ring_append (r : Ring) (e : RingEntry) : Ring :=
  ⟨r.capacity, r.start, (r.stop + 1) % r.capacity, Function.update r.data r.stop e⟩

/-- Modelled from the spec: `ring_put` (body not in `src/`); grows first if
the buffer is full, then appends the entry at `end` and advances `end`
modulo the capacity. -/
def ring_put (r : Ring) (e : RingEntry) : Ring :=
  ring_append (if ring_full r then ring_grow r else r) e

/-- A ring with its oldest entry removed (`start` advanced by one). -/
def ring_tail (r : Ring) : Ring :=
  ⟨r.capacity, (r.start + 1) % r.capacity, r.stop, r.data⟩

/-- Modelled from the spec: `ring_get` (body not in `src/`); returns the
oldest entry and advances `start`, or `none` when the ring is empty. -/
def ring_get (r : Ring) : Option (RingEntry × Ring) :=
  if r.start = r.stop then none
  else some (r.data r.start, ring_tail r)

/-- The pending entries of a ring, oldest first. -/
def ring_toList (r : Ring) : List RingEntry :=
  (List.range (ring_size r)).map (fun i => r.data ((r.start + i) % r.capacity))

/-- Well-formedness of a ring: positive capacity and in-range indices. -/
def RingWF (r : Ring) : Prop :=
  0 < r.capacity ∧ r.start < r.capacity ∧ r.stop < r.capacity

instance (r : Ring) : Decidable (RingWF r) := by
  unfold RingWF
  infer_instance

/-- Push a whole list of entries, oldest first. -/
def ring_put_all (r : Ring) (es : List RingEntry) : Ring :=
  es.foldl ring_put r

/-- Drain the ring with explicit fuel. -/
def ring_drain_go : Nat → Ring → List RingEntry
  | 0, _ => []
  | Nat.succ n, r =>
    match ring_get r with
    | none => []
    | some (e, r2) => e :: ring_drain_go n r2

/-- Drain the ring completely: repeated `ring_get` until empty. -/
def ring_drain (r : Ring) : List RingEntry :=
  ring_drain_go (ring_size r) r

/-! ### Arithmetic helpers for the circular-index reasoning -/

/-- Characterisation of `a % n` for `a < 2 * n`, in a form `omega` can use
with the `%`-term left as an atom. -/
theorem emod2 (a n : Nat) (hn : 0 < n) (h : a < 2 * n) :
    a % n < n ∧ (a % n = a ∨ a % n + n = a) := by
  refine ⟨Nat.mod_lt _ hn, ?_⟩
  rcases Nat.lt_or_ge a n with hlt | hge
  · exact Or.inl (Nat.mod_eq_of_lt hlt)
  · right
    rw [Nat.mod_eq_sub_mod hge, Nat.mod_eq_of_lt (by omega)]
    omega

theorem ring_size_lt (r : Ring) (h : RingWF r) : ring_size r < r.capacity :=
  Nat.mod_lt _ h.1

theorem ring_size_zero_iff (r : Ring) (h : RingWF r) :
    ring_size r = 0 ↔ r.start = r.stop := by
  obtain ⟨hc, hs, he⟩ := h
  unfold ring_size
  have A := emod2 (r.stop + r.capacity - r.start) r.capacity hc (by omega)
  omega

theorem ring_toList_length (r : Ring) : (ring_toList r).length = ring_size r := by
  simp [ring_toList]

/-- The slot of the `i`-th pending entry never collides with the write
slot `stop`. -/
theorem ring_slot_ne_stop (r : Ring) (h : RingWF r) (i : Nat) (hi : i < ring_size r) :
    (r.start + i) % r.capacity ≠ r.stop := by
  obtain ⟨hc, hs, he⟩ := h
  unfold ring_size at hi
  have A := emod2 (r.stop + r.capacity - r.start) r.capacity hc (by omega)
  have B := emod2 (r.start + i) r.capacity hc (by omega)
  omega

/-- The write slot is exactly the slot `size` positions past `start`. -/
theorem ring_slot_at_size (r : Ring) (h : RingWF r) :
    (r.start + ring_size r) % r.capacity = r.stop := by
  obtain ⟨hc, hs, he⟩ := h
  unfold ring_size
  have A := emod2 (r.stop + r.capacity - r.start) r.capacity hc (by omega)
  have B := emod2 (r.start + (r.stop + r.capacity - r.start) % r.capacity) r.capacity hc
    (by omega)
  omega

/-! ### Growth preserves the pending entries -/

theorem ringWF_grow (r : Ring) (h : RingWF r) : RingWF (ring_grow r) := by
  have hlt := ring_size_lt r h
  have hc := h.1
  refine ⟨?_, ?_, ?_⟩ <;> simp only [ring_grow] <;> omega

theorem ring_size_grow (r : Ring) (h : RingWF r) : ring_size (ring_grow r) = ring_size r := by
  have hlt := ring_size_lt r h
  have hc := h.1
  show (ring_size r + 2 * r.capacity - 0) % (2 * r.capacity) = ring_size r
  rw [Nat.sub_zero, Nat.add_mod_right]
  exact Nat.mod_eq_of_lt (by omega)

theorem ring_toList_grow (r : Ring) (h : RingWF r) :
    ring_toList (ring_grow r) = ring_toList r := by
  have hsz := ring_size_grow r h
  have hlt := ring_size_lt r h
  have hc := h.1
  unfold ring_toList
  rw [hsz]
  apply List.map_congr_left
  intro i hi
  rw [List.mem_range] at hi
  have h1 : ((ring_grow r).start + i) % (ring_grow r).capacity = i := by
    simp only [ring_grow]
    rw [Nat.zero_add]
    exact Nat.mod_eq_of_lt (by omega)
  rw [h1]
  show (if i < ring_size r then r.data ((r.start + i) % r.capacity) else default) = _
  rw [if_pos hi]

theorem ring_full_grow (r : Ring) (h : RingWF r) : ring_full (ring_grow r) = false := by
  have hlt := ring_size_lt r h
  have hc := h.1
  simp only [ring_full, ring_grow, decide_eq_false_iff_not]
  rw [Nat.mod_eq_of_lt (by omega)]
  omega

/-! ### Push appends to the pending entries -/

theorem ringWF_append (r : Ring) (e : RingEntry) (h : RingWF r) :
    RingWF (ring_append r e) := by
  obtain ⟨hc, hs, he⟩ := h
  exact ⟨hc, hs, Nat.mod_lt _ hc⟩

theorem ring_size_append (r : Ring) (e : RingEntry) (h : RingWF r)
    (hnf : ring_full r = false) :
    ring_size (ring_append r e) = ring_size r + 1 := by
  obtain ⟨hc, hs, he⟩ := h
  simp only [ring_full, decide_eq_false_iff_not] at hnf
  show ((r.stop + 1) % r.capacity + r.capacity - r.start) % r.capacity
      = (r.stop + r.capacity - r.start) % r.capacity + 1
  have A := emod2 (r.stop + 1) r.capacity hc (by omega)
  have B := emod2 ((r.stop + 1) % r.capacity + r.capacity - r.start) r.capacity hc (by omega)
  have C := emod2 (r.stop + r.capacity - r.start) r.capacity hc (by omega)
  omega

theorem ring_toList_append (r : Ring) (e : RingEntry) (h : RingWF r)
    (hnf : ring_full r = false) :
    ring_toList (ring_append r e) = ring_toList r ++ [e] := by
  have hsz := ring_size_append r e h hnf
  unfold ring_toList
  rw [hsz, List.range_succ, List.map_append, List.map_singleton]
  congr 1
  · apply List.map_congr_left
    intro i hi
    rw [List.mem_range] at hi
    have hslot : (r.start + i) % r.capacity ≠ r.stop := ring_slot_ne_stop r h i hi
    show Function.update r.data r.stop e ((r.start + i) % r.capacity) = _
    rw [Function.update_noteq hslot]
  · have hslot : (r.start + ring_size r) % r.capacity = r.stop := ring_slot_at_size r h
    show [Function.update r.data r.stop e ((r.start + ring_size r) % r.capacity)] = [e]
    rw [hslot, Function.update_same]

theorem ringWF_put (r : Ring) (e : RingEntry) (h : RingWF r) :
    RingWF (ring_put r e) := by
  unfold ring_put
  by_cases hf : ring_full r
  · rw [if_pos hf]
    exact ringWF_append _ e (ringWF_grow r h)
  · rw [if_neg hf]
    exact ringWF_append _ e h

theorem ring_toList_put (r : Ring) (e : RingEntry) (h : RingWF r) :
    ring_toList (ring_put r e) = ring_toList r ++ [e] := by
  unfold ring_put
  by_cases hf : ring_full r
  · rw [if_pos hf, ring_toList_append _ e (ringWF_grow r h) (ring_full_grow r h),
      ring_toList_grow r h]
  · rw [if_neg hf, ring_toList_append r e h (by simpa using hf)]

theorem ringWF_put_all (r : Ring) (es : List RingEntry) (h : RingWF r) :
    RingWF (ring_put_all r es) := by
  induction es generalizing r with
  | nil => exact h
  | cons e es ih => exact ih (ring_put r e) (ringWF_put r e h)

theorem ring_toList_put_all (r : Ring) (es : List RingEntry) (h : RingWF r) :
    ring_toList (ring_put_all r es) = ring_toList r ++ es := by
  induction es generalizing r with
  | nil => simp [ring_put_all]
  | cons e es ih =>
    show ring_toList (ring_put_all (ring_put r e) es) = _
    rw [ih (ring_put r e) (ringWF_put r e h), ring_toList_put r e h]
    simp

/-! ### Pop removes the oldest pending entry -/

theorem ringWF_tail (r : Ring) (h : RingWF r) : RingWF (ring_tail r) :=
  ⟨h.1, Nat.mod_lt _ h.1, h.2.2⟩

theorem ring_size_tail (r : Ring) (h : RingWF r) (hne : r.start ≠ r.stop) :
    ring_size (ring_tail r) + 1 = ring_size r := by
  obtain ⟨hc, hs, he⟩ := h
  show (r.stop + r.capacity - (r.start + 1) % r.capacity) % r.capacity + 1
      = (r.stop + r.capacity - r.start) % r.capacity
  have A := emod2 (r.start + 1) r.capacity hc (by omega)
  have B := emod2 (r.stop + r.capacity - (r.start + 1) % r.capacity) r.capacity hc (by omega)
  have C := emod2 (r.stop + r.capacity - r.start) r.capacity hc (by omega)
  omega

theorem ring_toList_tail (r : Ring) (h : RingWF r) (hne : r.start ≠ r.stop) :
    ring_toList r = r.data r.start :: ring_toList (ring_tail r) := by
  have hsz := ring_size_tail r h hne
  obtain ⟨hc, hs, he⟩ := h
  unfold ring_toList
  have h0 : ring_size r = ring_size (ring_tail r) + 1 := by omega
  rw [h0, List.range_succ_eq_map, List.map_cons, List.map_map]
  congr 1
  · rw [Nat.add_zero, Nat.mod_eq_of_lt hs]
  · apply List.map_congr_left
    intro i hi
    show r.data ((r.start + (i + 1)) % r.capacity)
        = (ring_tail r).data (((ring_tail r).start + i) % (ring_tail r).capacity)
    simp only [ring_tail]
    rw [Nat.mod_add_mod]
    have harg : r.start + (i + 1) = r.start + 1 + i := by omega
    rw [harg]

theorem ring_toList_nil_of_empty (r : Ring) (h : RingWF r) (he : r.start = r.stop) :
    ring_toList r = [] := by
  have h1 : (ring_toList r).length = 0 := by
    rw [ring_toList_length]
    exact (ring_size_zero_iff r h).mpr he
  exact List.eq_nil_of_length_eq_zero h1

theorem ring_drain_go_eq (n : Nat) :
    ∀ r : Ring, RingWF r → ring_size r ≤ n → ring_drain_go n r = ring_toList r := by
  induction n with
  | zero =>
    intro r h hle
    rw [ring_drain_go]
    have hz : ring_size r = 0 := Nat.le_zero.mp hle
    exact (ring_toList_nil_of_empty r h ((ring_size_zero_iff r h).mp hz)).symm
  | succ n ih =>
    intro r h hle
    by_cases hne : r.start = r.stop
    · rw [ring_drain_go, ring_get, if_pos hne]
      exact (ring_toList_nil_of_empty r h hne).symm
    · rw [ring_drain_go, ring_get, if_neg hne]
      have hsz := ring_size_tail r h hne
      show r.data r.start :: ring_drain_go n (ring_tail r) = ring_toList r
      rw [ih (ring_tail r) (ringWF_tail r h) (by omega)]
      exact (ring_toList_tail r h hne).symm

theorem ring_drain_eq (r : Ring) (h : RingWF r) : ring_drain r = ring_toList r :=
  ring_drain_go_eq (ring_size r) r h le_rfl

theorem ringWF_alloc (n : Nat) (h : 0 < n) : RingWF (ring_alloc n) :=
  ⟨h, h, h⟩

theorem ring_toList_alloc (n : Nat) : ring_toList (ring_alloc n) = [] := by
  simp [ring_toList, ring_size, ring_alloc]

/-! ### Relational model of the SQLite store (schema of `db_init`) -/

/-- A row of the `block`, `light` or `block_damage` table. -/
structure Row6 where
  p : Int
  q : Int
  x : Int
  y : Int
  z : Int
  w : Int
deriving DecidableEq, Repr

/-- A row of the `key` table. -/
structure KeyRow where
  p : Int
  q : Int
  key : Int
deriving DecidableEq, Repr

/-- A row of the `sign` table. -/
structure SignRow where
  p : Int
  q : Int
  x : Int
  y : Int
  z : Int
  face : Int
  text : String
deriving DecidableEq, Repr

/-- A row of the `state` table. -/
structure StateRow where
  x : Int
  y : Int
  z : Int
  rx : Int
  ry : Int
  flying : Int
deriving DecidableEq, Repr

/-- A row of the `auth.identity_token` table. -/
structure AuthRow where
  username : String
  token : String
  selected : Int
deriving DecidableEq, Repr

/-- The tables created by `db_init`. -/
structure DbState where
  block : List Row6
  light : List Row6
  key : List KeyRow
  block_damage : List Row6
  sign : List SignRow
  state : List StateRow
  identity_token : List AuthRow
deriving DecidableEq, Repr

/-- The empty store. -/
def db_empty : DbState := ⟨[], [], [], [], [], [], []⟩

/-- Whether a 6-column row has the given `(p, q, x, y, z)` key. -/
def row6_matches (r : Row6) (p q x y z : Int) : Bool :=
  r.p == p && r.q == q && r.x == x && r.y == y && r.z == z

/-- Equality of the `(p, q, x, y, z)` key of two 6-column rows
(the unique index `*_pqxyz_idx`). -/
def row6_same_key (a b : Row6) : Bool :=
  row6_matches a b.p b.q b.x b.y b.z

/-- Model of `insert or replace` semantics under the unique index on
`(p, q, x, y, z)`: the old row with the same key (if any) is replaced. -/
def insert_or_replace6 (rows : List Row6) (r : Row6) : List Row6 :=
  rows.filter (fun r2 => !(row6_same_key r2 r)) ++ [r]

/-- Point query on a 6-column table by its `(p, q, x, y, z)` key. -/
def lookup6 (rows : List Row6) (p q x y z : Int) : Option Int :=
  (rows.find? (fun r => row6_matches r p q x y z)).map (fun r => r.w)

/-- Equality of the `(p, q)` key of two key rows (index `key_pq_idx`). -/
def key_row_same (a b : KeyRow) : Bool :=
  a.p == b.p && a.q == b.q

/-- Model of `insert or replace` on the `key` table. -/
def insert_or_replace_key (rows : List KeyRow) (r : KeyRow) : List KeyRow :=
  rows.filter (fun r2 => !(key_row_same r2 r)) ++ [r]

/-- The point query `select key from key where p = ? and q = ?`. -/
def key_point_query (rows : List KeyRow) (p q : Int) : Option KeyRow :=
  rows.find? (fun r => r.p == p && r.q == q)

/-- Equality of the `(x, y, z, face)` key of two sign rows. -/
def sign_row_same (a b : SignRow) : Bool :=
  a.x == b.x && a.y == b.y && a.z == b.z && a.face == b.face

/-- Model of `insert or replace` on the `sign` table. -/
def insert_or_replace_sign (rows : List SignRow) (r : SignRow) : List SignRow :=
  rows.filter (fun r2 => !(sign_row_same r2 r)) ++ [r]

/-! ### The worker-side write operations (`_db_*` statics of `src/db.c`) -/

/-- Model of `_db_insert_block`: `insert or replace into block`. -/
def _db_insert_block (s : DbState) (p q x y z w : Int) : DbState :=
  { s with block := insert_or_replace6 s.block ⟨p, q, x, y, z, w⟩ }

/-- Model of `_db_insert_light`: `insert or replace into light`. -/
def _db_insert_light (s : DbState) (p q x y z w : Int) : DbState :=
  { s with light := insert_or_replace6 s.light ⟨p, q, x, y, z, w⟩ }

/-- Model of `_db_insert_block_damage`: `insert or replace into block_damage`. -/
def _db_insert_block_damage (s : DbState) (p q x y z w : Int) : DbState :=
  { s with block_damage := insert_or_replace6 s.block_damage ⟨p, q, x, y, z, w⟩ }

/-- Model of `_db_set_key`: `insert or replace into key`. -/
def _db_set_key (s : DbState) (p q key : Int) : DbState :=
  { s with key := insert_or_replace_key s.key ⟨p, q, key⟩ }

/-- Model of `_db_block_damage_trim`: `delete from block_damage where w=0 and p=? and q=?`
(the prepared `trim_block_damage_query`). -/
def _db_block_damage_trim (s : DbState) (p q : Int) : DbState :=
  { s with block_damage :=
      s.block_damage.filter (fun r => !(r.w == 0 && r.p == p && r.q == q)) }

/-- Model of `_db_commit`: `commit; begin;` — a transaction boundary, which does not
change the logical table contents. -/
def _db_commit (s : DbState) : DbState := s

/-! ### Store-adapter events -/

/-- One call into the store adapter made on behalf of a command or an
immediate operation. -/
inductive StoreOp where
  | insert_block (p q x y z w : Int)
  | insert_light (p q x y z w : Int)
  | insert_block_damage (p q x y z w : Int)
  | set_key (p q key : Int)
  | trim_block_damage (p q : Int)
  | txn_commit
  | insert_sign (p q x y z face : Int) (text : String)
  | delete_sign (x y z face : Int)
  | delete_signs (x y z : Int)
  | delete_all_signs
  | delete_state
  | insert_state (x y z rx ry flying : Int)
  | auth_write
deriving DecidableEq, Repr

/-- An observable action of a `db_*` entry point: taking or releasing the
read-serialization mutex `load_mtx`, executing a read query, or executing
a write through the store adapter. -/
inductive Event where
  | lock_load
  | unlock_load
  | store_read (table : String)
  | store_write (op : StoreOp)
deriving DecidableEq, Repr

/-! ### The worker (`db_worker_run`, `src/db.c:748-783`) -/

/-- The `switch (e.type)` dispatch of `db_worker_run` as a transformation
of the store.  `BLOCK` first applies the block write and then a
block-damage write with value `0` at the same coordinates. -/
def apply_entry (s : DbState) (e : RingEntry) : DbState :=
  match e.type with
  | RingEntryType.BLOCK =>
      _db_insert_block_damage (_db_insert_block s e.p e.q e.x e.y e.z e.w) e.p e.q e.x e.y e.z 0
  | RingEntryType.LIGHT => _db_insert_light s e.p e.q e.x e.y e.z e.w
  | RingEntryType.KEY => _db_set_key s e.p e.q e.key
  | RingEntryType.COMMIT => _db_commit s
  | RingEntryType.EXIT => s
  | RingEntryType.BLOCK_DAMAGE => _db_insert_block_damage s e.p e.q e.x e.y e.z e.w
  | RingEntryType.BLOCK_DAMAGE_TRIM => _db_block_damage_trim s e.p e.q

/-- The store-adapter calls the worker makes for one popped entry, in
program order of the `switch` arms. -/
def entry_ops (e : RingEntry) : List Event :=
  match e.type with
  | RingEntryType.BLOCK =>
      [Event.store_write (StoreOp.insert_block e.p e.q e.x e.y e.z e.w),
       Event.store_write (StoreOp.insert_block_damage e.p e.q e.x e.y e.z 0)]
  | RingEntryType.LIGHT => [Event.store_write (StoreOp.insert_light e.p e.q e.x e.y e.z e.w)]
  | RingEntryType.KEY => [Event.store_write (StoreOp.set_key e.p e.q e.key)]
  | RingEntryType.COMMIT => [Event.store_write StoreOp.txn_commit]
  | RingEntryType.EXIT => []
  | RingEntryType.BLOCK_DAMAGE =>
      [Event.store_write (StoreOp.insert_block_damage e.p e.q e.x e.y e.z e.w)]
  | RingEntryType.BLOCK_DAMAGE_TRIM =>
      [Event.store_write (StoreOp.trim_block_damage e.p e.q)]

/-- Outcome of a worker run: the final store, the store-adapter calls in
order, and whether the worker took the terminal `EXIT` transition
(`stopped = false` means it is back in the waiting state). -/
structure WorkerResult where
  store : DbState
  events : List Event
  stopped : Bool
deriving DecidableEq, Repr

/-- The loop of `db_worker_run`: pop the oldest entry under the queue lock,
release the lock, dispatch on the entry type; `EXIT` clears `running`.
When the queue empties the worker blocks on the condition variable, which
in this single-run model ends the run with `stopped = false`.  The fuel is
an upper bound on the number of pops. -/
def db_worker_loop : Nat → Ring → DbState → WorkerResult
  | 0, _, s => ⟨s, [], false⟩
  | Nat.succ n, r, s =>
    match ring_get r with
    | none => ⟨s, [], false⟩
    | some (e, r2) =>
      if e.type = RingEntryType.EXIT then ⟨s, [], true⟩
      else
        let res := db_worker_loop n r2 (apply_entry s e)
        ⟨res.store, entry_ops e ++ res.events, res.stopped⟩

/-- Model of `db_worker_run` on a queue with no concurrent producers: drains until
`EXIT` or until the queue is empty. -/
def db_worker_run (r : Ring) (s : DbState) : WorkerResult :=
  db_worker_loop (ring_size r) r s

/-- The worker viewed on the popped sequence directly. -/
def db_worker_process : List RingEntry → DbState → WorkerResult
  | [], s => ⟨s, [], false⟩
  | e :: rest, s =>
    if e.type = RingEntryType.EXIT then ⟨s, [], true⟩
    else
      let res := db_worker_process rest (apply_entry s e)
      ⟨res.store, entry_ops e ++ res.events, res.stopped⟩

theorem db_worker_loop_eq (n : Nat) :
    ∀ (r : Ring) (s : DbState), RingWF r → ring_size r ≤ n →
      db_worker_loop n r s = db_worker_process (ring_toList r) s := by
  induction n with
  | zero =>
    intro r s h hle
    have hz : ring_size r = 0 := Nat.le_zero.mp hle
    rw [db_worker_loop, ring_toList_nil_of_empty r h ((ring_size_zero_iff r h).mp hz)]
    rfl
  | succ n ih =>
    intro r s h hle
    by_cases hne : r.start = r.stop
    · rw [db_worker_loop, ring_get, if_pos hne, ring_toList_nil_of_empty r h hne]
      rfl
    · rw [db_worker_loop, ring_get, if_neg hne, ring_toList_tail r h hne,
        db_worker_process]
      have hsz := ring_size_tail r h hne
      show (if (r.data r.start).type = RingEntryType.EXIT then _ else _) = _
      by_cases hty : (r.data r.start).type = RingEntryType.EXIT
      · rw [if_pos hty, if_pos hty]
      · rw [if_neg hty, if_neg hty,
          ih (ring_tail r) (apply_entry s (r.data r.start)) (ringWF_tail r h) (by omega)]

theorem db_worker_run_eq (r : Ring) (s : DbState) (h : RingWF r) :
    db_worker_run r s = db_worker_process (ring_toList r) s :=
  db_worker_loop_eq (ring_size r) r s h le_rfl

theorem db_worker_process_no_exit (es : List RingEntry) (s : DbState)
    (h : ∀ e ∈ es, e.type ≠ RingEntryType.EXIT) :
    db_worker_process es s = ⟨es.foldl apply_entry s, es.flatMap entry_ops, false⟩ := by
  induction es generalizing s with
  | nil => rfl
  | cons e rest ih =>
    rw [db_worker_process, if_neg (h e (List.mem_cons_self e rest)),
      ih (apply_entry s e) (fun e2 he2 => h e2 (List.mem_cons_of_mem e he2))]
    simp

theorem db_worker_process_then_exit (es : List RingEntry) (s : DbState) (ex : RingEntry)
    (h : ∀ e ∈ es, e.type ≠ RingEntryType.EXIT) (hex : ex.type = RingEntryType.EXIT) :
    db_worker_process (es ++ [ex]) s = ⟨es.foldl apply_entry s, es.flatMap entry_ops, true⟩ := by
  induction es generalizing s with
  | nil =>
    rw [List.nil_append, db_worker_process, if_pos hex]
    rfl
  | cons e rest ih =>
    rw [List.cons_append, db_worker_process, if_neg (h e (List.mem_cons_self e rest)),
      ih (apply_entry s e) (fun e2 he2 => h e2 (List.mem_cons_of_mem e he2))]
    simp

/-! ### Ring entry constructors (the `ring_put_*` wrappers of `src/ring.h`) -/

/-- Modelled from the spec: the entry pushed by `ring_put_block`. -/
def block_entry (p q x y z w : Int) : RingEntry :=
  ⟨RingEntryType.BLOCK, p, q, x, y, z, w, 0⟩

/-- Modelled from the spec: the entry pushed by `ring_put_light`. -/
def light_entry (p q x y z w : Int) : RingEntry :=
  ⟨RingEntryType.LIGHT, p, q, x, y, z, w, 0⟩

/-- Modelled from the spec: the entry pushed by `ring_put_block_damage`. -/
def block_damage_entry (p q x y z damage : Int) : RingEntry :=
  ⟨RingEntryType.BLOCK_DAMAGE, p, q, x, y, z, damage, 0⟩

/-- Modelled from the spec: the entry pushed by `ring_put_block_damage_trim`. -/
def block_damage_trim_entry (p q : Int) : RingEntry :=
  ⟨RingEntryType.BLOCK_DAMAGE_TRIM, p, q, 0, 0, 0, 0, 0⟩

/-- Modelled from the spec: the entry pushed by `ring_put_key`. -/
def key_entry (p q key : Int) : RingEntry :=
  ⟨RingEntryType.KEY, p, q, 0, 0, 0, 0, key⟩

/-- Modelled from the spec: the entry pushed by `ring_put_commit`. -/
def commit_entry : RingEntry :=
  ⟨RingEntryType.COMMIT, 0, 0, 0, 0, 0, 0, 0⟩

/-- Modelled from the spec: the entry pushed by `ring_put_exit`. -/
def exit_entry : RingEntry :=
  ⟨RingEntryType.EXIT, 0, 0, 0, 0, 0, 0, 0⟩

/-! ### The in-memory chunk map (`map_set` of the `Map` collaborator)

`db_load_blocks` / `db_load_lights` / `db_load_damage` write rows into an
in-memory `Map`; it is modelled as a total function from block coordinates
to the stored value, `0` meaning "no entry". -/

def Map3 : Type := Int × Int × Int → Int

/-- Model of `map_set`: store a value at a block coordinate. -/
def map_set (m : Map3) (x y z w : Int) : Map3 :=
  fun k => if k = (x, y, z) then w else m k

/-- The rows of one chunk: `where p = ? and q = ?`. -/
def chunk_rows (rows : List Row6) (p q : Int) : List Row6 :=
  rows.filter (fun r => r.p == p && r.q == q)

/-- The row loop of `db_load_damage` (`src/db.c:605-612`): rows whose
damage value is `0` are skipped (`if (!d) continue;`), all others are
`map_set` into the destination map. -/
def load_damage_rows (m : Map3) (rows : List Row6) : Map3 :=
  rows.foldl (fun m2 r => if r.w == 0 then m2 else map_set m2 r.x r.y r.z r.w) m

/-! ### Dispatcher state (the file-scope statics of `src/db.c`) -/

/-- The statics of `src/db.c` the entry points touch: the `db_enabled`
switch, the command ring and the store behind the prepared statements.
The mutexes and the condition variable are represented by the event
traces the functions emit. -/
structure DbGlobal where
  db_enabled : Bool
  ring : Ring
  store : DbState

/-- Model of `db_enable`. -/
def db_enable (g : DbGlobal) : DbGlobal := { g with db_enabled := true }

/-- Model of `db_disable`. -/
def db_disable (g : DbGlobal) : DbGlobal := { g with db_enabled := false }

/-- Model of `get_db_enabled`. -/
def get_db_enabled (g : DbGlobal) : Bool := g.db_enabled

/-! ### Enqueueing entry points (lock; `ring_put_*`; signal; unlock) -/

/-- Model of `db_insert_block` (`src/db.c:411-417`): enqueue a `BLOCK` command. -/
def db_insert_block (g : DbGlobal) (p q x y z w : Int) : DbGlobal × List Event :=
  if !g.db_enabled then (g, [])
  else ({ g with ring := ring_put g.ring (block_entry p q x y z w) }, [])

/-- Model of `db_insert_light` (`src/db.c:488-494`): enqueue a `LIGHT` command. -/
def db_insert_light (g : DbGlobal) (p q x y z w : Int) : DbGlobal × List Event :=
  if !g.db_enabled then (g, [])
  else ({ g with ring := ring_put g.ring (light_entry p q x y z w) }, [])

/-- Model of `db_insert_block_damage` (`src/db.c:440-446`): enqueue a
`BLOCK_DAMAGE` command. -/
def db_insert_block_damage (g : DbGlobal) (p q x y z damage : Int) : DbGlobal × List Event :=
  if !g.db_enabled then (g, [])
  else ({ g with ring := ring_put g.ring (block_damage_entry p q x y z damage) }, [])

/-- Model of `db_trim_block_damage` (`src/db.c:462-468`): enqueue a
`BLOCK_DAMAGE_TRIM` command. -/
def db_trim_block_damage (g : DbGlobal) (p q : Int) : DbGlobal × List Event :=
  if !g.db_enabled then (g, [])
  else ({ g with ring := ring_put g.ring (block_damage_trim_entry p q) }, [])

/-- Model of `db_set_key` (`src/db.c:688-694`): enqueue a `KEY` command. -/
def db_set_key (g : DbGlobal) (p q key : Int) : DbGlobal × List Event :=
  if !g.db_enabled then (g, [])
  else ({ g with ring := ring_put g.ring (key_entry p q key) }, [])

/-- Model of `db_commit` (`src/db.c:245-251`): enqueue a `COMMIT` command. -/
def db_commit (g : DbGlobal) : DbGlobal × List Event :=
  if !g.db_enabled then (g, [])
  else ({ g with ring := ring_put g.ring commit_entry }, [])

/-! ### Worker lifecycle entry points -/

/-- Model of `db_worker_start` (`src/db.c:716-723`): allocate the ring with initial
capacity 1024, initialize the synchronization primitives and spawn the
worker thread (the spawned run itself is `db_worker_run`). -/
def db_worker_start (g : DbGlobal) : DbGlobal × List Event :=
  if !g.db_enabled then (g, [])
  else ({ g with ring := ring_alloc 1024 }, [])

/-- Model of `db_worker_stop` (`src/db.c:729-740`): enqueue `EXIT` through the same
locked push+signal path, then join the worker and destroy the
primitives (the join is covered by the `db_worker_run` theorems). -/
def db_worker_stop (g : DbGlobal) : DbGlobal × List Event :=
  if !g.db_enabled then (g, [])
  else ({ g with ring := ring_put g.ring exit_entry }, [])

/-! ### Immediate (non-queued) entry points -/

/-- Model of `db_insert_sign` (`src/db.c:520-533`): immediate
`insert or replace into sign`. -/
def db_insert_sign (g : DbGlobal) (p q x y z face : Int) (text : String) :
    DbGlobal × List Event :=
  if !g.db_enabled then (g, [])
  else ({ g with store :=
          { g.store with sign := insert_or_replace_sign g.store.sign ⟨p, q, x, y, z, face, text⟩ } },
        [Event.store_write (StoreOp.insert_sign p q x y z face text)])

/-- Model of `db_delete_sign` (`src/db.c:540-548`): immediate
`delete from sign where x = ? and y = ? and z = ? and face = ?`. -/
def db_delete_sign (g : DbGlobal) (x y z face : Int) : DbGlobal × List Event :=
  if !g.db_enabled then (g, [])
  else ({ g with store :=
          { g.store with sign :=
              g.store.sign.filter (fun r => !(r.x == x && r.y == y && r.z == z && r.face == face)) } },
        [Event.store_write (StoreOp.delete_sign x y z face)])

/-- Model of `db_delete_signs` (`src/db.c:554-561`): immediate
`delete from sign where x = ? and y = ? and z = ?`. -/
def db_delete_signs (g : DbGlobal) (x y z : Int) : DbGlobal × List Event :=
  if !g.db_enabled then (g, [])
  else ({ g with store :=
          { g.store with sign :=
              g.store.sign.filter (fun r => !(r.x == x && r.y == y && r.z == z)) } },
        [Event.store_write (StoreOp.delete_signs x y z)])

/-- Model of `db_delete_all_signs` (`src/db.c:565-568`): immediate
`delete from sign`. -/
def db_delete_all_signs (g : DbGlobal) : DbGlobal × List Event :=
  if !g.db_enabled then (g, [])
  else ({ g with store := { g.store with sign := [] } },
        [Event.store_write StoreOp.delete_all_signs])

/-- Model of `db_save_state` (`src/db.c:355-370`): immediate `delete from state;`
followed by one `insert into state`. -/
def db_save_state (g : DbGlobal) (x y z rx ry flying : Int) : DbGlobal × List Event :=
  if !g.db_enabled then (g, [])
  else ({ g with store := { g.store with state := [⟨x, y, z, rx, ry, flying⟩] } },
        [Event.store_write StoreOp.delete_state,
         Event.store_write (StoreOp.insert_state x y z rx ry flying)])

/-- Model of `db_load_state` (`src/db.c:383-403`): immediate
`select x, y, z, rx, ry, flying from state;` — returns `1` and the first
row when one exists, `0` otherwise. -/
def db_load_state (g : DbGlobal) : Int × Option StateRow × List Event :=
  if !g.db_enabled then (0, none, [])
  else
    match g.store.state.head? with
    | some r => (1, some r, [Event.store_read "state"])
    | none => (0, none, [Event.store_read "state"])

/-- Model of `db_auth_set` (`src/db.c:262-275`): immediate credential write:
`insert or replace` the token row, then `db_auth_select` it (clear every
`selected` flag, then set it for this username). -/
def db_auth_set (g : DbGlobal) (username token : String) : DbGlobal × List Event :=
  if !g.db_enabled then (g, [])
  else
    let rows1 := (g.store.identity_token.filter (fun r => !(r.username == username)))
      ++ [⟨username, token, 1⟩]
    let rows2 := rows1.map (fun r => { r with selected := 0 })
    let rows3 := rows2.map (fun r => if r.username == username then { r with selected := 1 } else r)
    ({ g with store := { g.store with identity_token := rows3 } },
     [Event.store_write StoreOp.auth_write, Event.store_write StoreOp.auth_write,
      Event.store_write StoreOp.auth_write])

/-- Model of `db_auth_get` (`src/db.c:299-319`): immediate credential read —
returns `1` and the token when a row matches the username, `0` otherwise. -/
def db_auth_get (g : DbGlobal) (username : String) : Int × Option String × List Event :=
  if !g.db_enabled then (0, none, [])
  else
    match g.store.identity_token.find? (fun r => r.username == username) with
    | some r => (1, some r.token, [Event.store_read "auth.identity_token"])
    | none => (0, none, [Event.store_read "auth.identity_token"])

/-! ### Immediate chunk loads and the key read -/

/-- Model of `db_load_blocks` (`src/db.c:576-590`): locks `load_mtx`, runs the
chunk query on `block` and `map_set`s every row, unlocks. -/
def db_load_blocks (g : DbGlobal) (m : Map3) (p q : Int) : Map3 × List Event :=
  if !g.db_enabled then (m, [])
  else ((chunk_rows g.store.block p q).foldl (fun m2 r => map_set m2 r.x r.y r.z r.w) m,
        [Event.lock_load, Event.store_read "block", Event.unlock_load])

/-- Model of `db_load_lights` (`src/db.c:624-638`): locks `load_mtx`, runs the
chunk query on `light` and `map_set`s every row, unlocks. -/
def db_load_lights (g : DbGlobal) (m : Map3) (p q : Int) : Map3 × List Event :=
  if !g.db_enabled then (m, [])
  else ((chunk_rows g.store.light p q).foldl (fun m2 r => map_set m2 r.x r.y r.z r.w) m,
        [Event.lock_load, Event.store_read "light", Event.unlock_load])

/-- Model of `db_load_damage` (`src/db.c:599-614`): locks `load_mtx`, runs the
chunk query on `block_damage`, skipping rows whose damage is `0`,
unlocks. -/
def db_load_damage (g : DbGlobal) (m : Map3) (p q : Int) : Map3 × List Event :=
  if !g.db_enabled then (m, [])
  else (load_damage_rows m (chunk_rows g.store.block_damage p q),
        [Event.lock_load, Event.store_read "block_damage", Event.unlock_load])

/-- Model of `db_load_signs` (`src/db.c:648-661`): runs the chunk query on `sign`
and appends every row to the sign list.  The source takes no
`load_mtx` lock here. -/
def db_load_signs (g : DbGlobal) (list : List SignRow) (p q : Int) :
    List SignRow × List Event :=
  if !g.db_enabled then (list, [])
  else (list ++ g.store.sign.filter (fun r => r.p == p && r.q == q),
        [Event.store_read "sign"])

/-- Model of `db_get_key` (`src/db.c:670-679`): immediate point query on `key`;
falls through to `return 0` unless the step yields a row.  The source
takes no `load_mtx` lock here. -/
def db_get_key (g : DbGlobal) (p q : Int) : Int × List Event :=
  if !g.db_enabled then (0, [])
  else
    match key_point_query g.store.key p q with
    | some r => (r.key, [Event.store_read "key"])
    | none => (0, [Event.store_read "key"])

/-! ### `db_get_key` with an explicit `sqlite3_step` outcome -/

/-- Outcome of `sqlite3_step` on the prepared `get_key_stmt`: a row, done
without a row, or an error code. -/
inductive StepOutcome where
  | row (value : Int)
  | done
  | error
deriving DecidableEq, Repr

/-- The value `db_get_key` returns as a function of the step outcome: only
`SQLITE_ROW` yields the stored key; `SQLITE_DONE` (no row) and any error
code both fall through to `return 0`. -/
def db_get_key_result (enabled : Bool) (st : StepOutcome) : Int :=
  if !enabled then 0
  else
    match st with
    | StepOutcome.row v => v
    | StepOutcome.done => 0
    | StepOutcome.error => 0

/-- The step outcome of the key point query when the store does not
fail. -/
def get_key_step (rows : List KeyRow) (p q : Int) : StepOutcome :=
  match key_point_query rows p q with
  | some r => StepOutcome.row r.key
  | none => StepOutcome.done

/-! ### Read-mutex discipline -/

/-- Checks that every `store_read` in a trace happens while the
read-serialization mutex `load_mtx` is held, tracking the lock depth. -/
def reads_locked : Nat → List Event → Bool
  | _, [] => true
  | d, Event.lock_load :: t => reads_locked (d + 1) t
  | d, Event.unlock_load :: t => reads_locked (d - 1) t
  | d, Event.store_read _ :: t => decide (0 < d) && reads_locked d t
  | d, Event.store_write _ :: t => reads_locked d t

/-! ### Support lemmas about the relational primitives -/

theorem find?_filter_neg {α : Type} (pr : α → Bool) (l : List α) :
    (l.filter (fun a => !(pr a))).find? pr = none := by
  induction l with
  | nil => rfl
  | cons a t ih =>
    by_cases h : pr a
    · simp only [List.filter_cons, h, Bool.not_true, Bool.false_eq_true, if_false]
      exact ih
    · simp only [List.filter_cons, Bool.not_eq_true] at *
      rw [h]
      simp only [Bool.not_false, if_true, List.find?, h]
      exact ih

theorem find?_append_none {α : Type} (pr : α → Bool) (l1 l2 : List α)
    (h : l1.find? pr = none) :
    (l1 ++ l2).find? pr = l2.find? pr := by
  induction l1 with
  | nil => rfl
  | cons a t ih =>
    rw [List.find?_cons] at h
    by_cases ha : pr a
    · rw [ha] at h
      cases h
    · rw [List.cons_append, List.find?_cons]
      rw [Bool.not_eq_true] at ha
      rw [ha] at h ⊢
      exact ih h

/-- After an `insert or replace`, the point query on the new row's key
returns the new row's value. -/
theorem lookup6_insert (rows : List Row6) (r : Row6) :
    lookup6 (insert_or_replace6 rows r) r.p r.q r.x r.y r.z = some r.w := by
  unfold lookup6 insert_or_replace6
  have h1 : (rows.filter (fun r2 => !(row6_same_key r2 r))).find?
      (fun r2 => row6_matches r2 r.p r.q r.x r.y r.z) = none := by
    have h0 := find?_filter_neg (fun r2 => row6_matches r2 r.p r.q r.x r.y r.z) rows
    simp only [row6_same_key] at h0 ⊢
    exact h0
  rw [find?_append_none _ _ _ h1]
  simp [List.find?, row6_matches]

/-- The damage-row loop ignores zero-damage rows entirely. -/
theorem load_damage_rows_filter (rows : List Row6) (m : Map3) :
    load_damage_rows m rows = load_damage_rows m (rows.filter (fun r => !(r.w == 0))) := by
  induction rows generalizing m with
  | nil => rfl
  | cons r t ih =>
    have hstep : load_damage_rows m (r :: t)
        = load_damage_rows (if r.w == 0 then m else map_set m r.x r.y r.z r.w) t := rfl
    by_cases h : (r.w == 0) = true
    · rw [hstep, if_pos h, ih m]
      simp [List.filter_cons, h]
    · rw [hstep, if_neg h]
      have h2 : (!(r.w == 0)) = true := by
        rw [Bool.not_eq_true] at h
        rw [h]
        rfl
      rw [List.filter_cons, if_pos h2]
      have hstep2 : load_damage_rows m (r :: t.filter (fun r2 => !(r2.w == 0)))
          = load_damage_rows (if r.w == 0 then m else map_set m r.x r.y r.z r.w)
            (t.filter (fun r2 => !(r2.w == 0))) := rfl
      rw [hstep2, if_neg h]
      exact ih (map_set m r.x r.y r.z r.w)

/-- The damage-row loop never writes a zero value: a zero in the result
was already present in the destination map. -/
theorem load_damage_rows_zero (rows : List Row6) (m : Map3) (k : Int × Int × Int)
    (h : load_damage_rows m rows k = 0) : m k = 0 := by
  induction rows generalizing m with
  | nil => exact h
  | cons r t ih =>
    have hstep : load_damage_rows m (r :: t)
        = load_damage_rows (if r.w == 0 then m else map_set m r.x r.y r.z r.w) t := rfl
    rw [hstep] at h
    by_cases hw : (r.w == 0) = true
    · rw [if_pos hw] at h
      exact ih m h
    · rw [if_neg hw] at h
      have h2 : map_set m r.x r.y r.z r.w k = 0 := ih _ h
      simp only [map_set] at h2
      by_cases hk : k = (r.x, r.y, r.z)
      · rw [if_pos hk] at h2
        rw [Bool.not_eq_true, beq_eq_false_iff_ne] at hw
        exact absurd h2 hw
      · rw [if_neg hk] at h2
        exact h2

/-! ### Concrete sample states used by the witnesses -/

/-- The empty in-memory map. -/
def map_empty : Map3 := fun _ => 0

/-- A concrete disabled global state. -/
def g_disabled : DbGlobal := ⟨false, ring_alloc 4, db_empty⟩

/-- A concrete enabled global state over an empty store. -/
def g_enabled : DbGlobal := ⟨true, ring_alloc 4, db_empty⟩

/-! ## The claims -/

/-- Claim C1: commands are popped and applied to the store in exactly the
order their pushes completed, globally across all producers (whose pushes
serialize under the single queue mutex into the list `es`), for any
starting queue contents and regardless of intervening ring growth: the
drain order is the push order, and the worker's store-adapter trace and
final store are the in-order application of exactly those commands. -/
theorem worker_applies_commands_in_push_order (r : Ring) (es : List RingEntry) (s : DbState)
    (hwf : RingWF r)
    (hne : ∀ e ∈ ring_toList r ++ es, e.type ≠ RingEntryType.EXIT) :
    ring_drain (ring_put_all r es) = ring_toList r ++ es ∧
    (db_worker_run (ring_put_all r es) s).events = (ring_toList r ++ es).flatMap entry_ops ∧
    (db_worker_run (ring_put_all r es) s).store = (ring_toList r ++ es).foldl apply_entry s := by
  have hwf2 := ringWF_put_all r es hwf
  have htl := ring_toList_put_all r es hwf
  refine ⟨?_, ?_, ?_⟩
  · rw [ring_drain_eq _ hwf2, htl]
  · rw [db_worker_run_eq _ s hwf2, htl, db_worker_process_no_exit _ s hne]
  · rw [db_worker_run_eq _ s hwf2, htl, db_worker_process_no_exit _ s hne]

theorem worker_applies_commands_in_push_order_witness :
    (RingWF (ring_alloc 2) ∧
      ∀ e ∈ ring_toList (ring_alloc 2)
          ++ [block_entry 0 0 1 2 3 55, light_entry 0 0 1 2 3 9, key_entry 0 0 7],
        e.type ≠ RingEntryType.EXIT) ∧
    (ring_drain (ring_put_all (ring_alloc 2)
          [block_entry 0 0 1 2 3 55, light_entry 0 0 1 2 3 9, key_entry 0 0 7])
        = ring_toList (ring_alloc 2)
          ++ [block_entry 0 0 1 2 3 55, light_entry 0 0 1 2 3 9, key_entry 0 0 7] ∧
      (db_worker_run (ring_put_all (ring_alloc 2)
          [block_entry 0 0 1 2 3 55, light_entry 0 0 1 2 3 9, key_entry 0 0 7]) db_empty).events
        = (ring_toList (ring_alloc 2)
          ++ [block_entry 0 0 1 2 3 55, light_entry 0 0 1 2 3 9, key_entry 0 0 7]).flatMap
            entry_ops ∧
      (db_worker_run (ring_put_all (ring_alloc 2)
          [block_entry 0 0 1 2 3 55, light_entry 0 0 1 2 3 9, key_entry 0 0 7]) db_empty).store
        = (ring_toList (ring_alloc 2)
          ++ [block_entry 0 0 1 2 3 55, light_entry 0 0 1 2 3 9, key_entry 0 0 7]).foldl
            apply_entry db_empty) :=
  ⟨⟨by decide, by decide⟩,
    worker_applies_commands_in_push_order (ring_alloc 2)
      [block_entry 0 0 1 2 3 55, light_entry 0 0 1 2 3 9, key_entry 0 0 7] db_empty
      (by decide) (by decide)⟩

/-- Claim C2: for every popped `BLOCK` command the worker applies the block
write and then a block-damage write with value `0` at the same
coordinates, so after the command is drained the damage record at those
coordinates is `0`. -/
theorem writeblock_clears_damage (s : DbState) (e : RingEntry)
    (h : e.type = RingEntryType.BLOCK) :
    apply_entry s e
      = _db_insert_block_damage (_db_insert_block s e.p e.q e.x e.y e.z e.w)
          e.p e.q e.x e.y e.z 0 ∧
    entry_ops e
      = [Event.store_write (StoreOp.insert_block e.p e.q e.x e.y e.z e.w),
         Event.store_write (StoreOp.insert_block_damage e.p e.q e.x e.y e.z 0)] ∧
    lookup6 (apply_entry s e).block_damage e.p e.q e.x e.y e.z = some 0 := by
  refine ⟨by rw [apply_entry, h], by rw [entry_ops, h], ?_⟩
  rw [apply_entry, h]
  show lookup6 (insert_or_replace6
      (_db_insert_block s e.p e.q e.x e.y e.z e.w).block_damage
      ⟨e.p, e.q, e.x, e.y, e.z, 0⟩) e.p e.q e.x e.y e.z = some 0
  exact lookup6_insert _ ⟨e.p, e.q, e.x, e.y, e.z, 0⟩

theorem writeblock_clears_damage_witness :
    (block_entry 0 0 1 2 3 55).type = RingEntryType.BLOCK ∧
    (apply_entry db_empty (block_entry 0 0 1 2 3 55)
      = _db_insert_block_damage (_db_insert_block db_empty 0 0 1 2 3 55) 0 0 1 2 3 0 ∧
     entry_ops (block_entry 0 0 1 2 3 55)
      = [Event.store_write (StoreOp.insert_block 0 0 1 2 3 55),
         Event.store_write (StoreOp.insert_block_damage 0 0 1 2 3 0)] ∧
     lookup6 (apply_entry db_empty (block_entry 0 0 1 2 3 55)).block_damage 0 0 1 2 3
      = some 0) :=
  ⟨rfl, writeblock_clears_damage db_empty (block_entry 0 0 1 2 3 55) rfl⟩

/-- Claim C3: when the buffer is full, a push doubles the capacity; growth
copies the pending entries to indices `0, …, size-1` with `start = 0` and
`end = size`, leaves `size` and the drained sequence unchanged (no loss,
duplication or reordering), and the push then appends the new entry after
the preserved ones. -/
theorem ring_growth_preserves_pending (r : Ring) (e : RingEntry) (h : RingWF r)
    (hfull : ring_full r = true) :
    (ring_put r e).capacity = 2 * r.capacity ∧
    (ring_grow r).capacity = 2 * r.capacity ∧
    (ring_grow r).start = 0 ∧
    (ring_grow r).stop = ring_size r ∧
    (∀ i, i < ring_size r → (ring_grow r).data i = r.data ((r.start + i) % r.capacity)) ∧
    ring_size (ring_grow r) = ring_size r ∧
    ring_toList (ring_grow r) = ring_toList r ∧
    ring_drain (ring_grow r) = ring_drain r ∧
    ring_toList (ring_put r e) = ring_toList r ++ [e] ∧
    ring_drain (ring_put r e) = ring_toList r ++ [e] := by
  refine ⟨?_, rfl, rfl, rfl, ?_, ring_size_grow r h, ring_toList_grow r h, ?_, ?_, ?_⟩
  · rw [ring_put, if_pos hfull]
    rfl
  · intro i hi
    show (if i < ring_size r then r.data ((r.start + i) % r.capacity) else default) = _
    rw [if_pos hi]
  · rw [ring_drain_eq _ (ringWF_grow r h), ring_drain_eq _ h, ring_toList_grow r h]
  · exact ring_toList_put r e h
  · rw [ring_drain_eq _ (ringWF_put r e h), ring_toList_put r e h]

theorem ring_growth_preserves_pending_witness :
    (RingWF (ring_put (ring_alloc 2) (block_entry 0 0 1 2 3 55)) ∧
     ring_full (ring_put (ring_alloc 2) (block_entry 0 0 1 2 3 55)) = true) ∧
    ((ring_put (ring_put (ring_alloc 2) (block_entry 0 0 1 2 3 55)) (light_entry 0 0 1 2 3 9)).capacity
        = 2 * (ring_put (ring_alloc 2) (block_entry 0 0 1 2 3 55)).capacity ∧
     ring_toList (ring_put (ring_put (ring_alloc 2) (block_entry 0 0 1 2 3 55)) (light_entry 0 0 1 2 3 9))
        = ring_toList (ring_put (ring_alloc 2) (block_entry 0 0 1 2 3 55)) ++ [light_entry 0 0 1 2 3 9]) :=
  ⟨⟨by decide, by decide⟩,
    ⟨(ring_growth_preserves_pending (ring_put (ring_alloc 2) (block_entry 0 0 1 2 3 55))
        (light_entry 0 0 1 2 3 9) (by decide) (by decide)).1,
     (ring_growth_preserves_pending (ring_put (ring_alloc 2) (block_entry 0 0 1 2 3 55))
        (light_entry 0 0 1 2 3 9) (by decide) (by decide)).2.2.2.2.2.2.2.2.1⟩⟩

/-- Claim C4: enqueueing `Exit` after `N` other commands results in all `N`
being applied (in order, none skipped) before the worker reaches its
terminal stopped state; `EXIT` is never processed ahead of any previously
enqueued command. -/
theorem exit_processed_after_all_commands (es : List RingEntry) (s : DbState)
    (hne : ∀ e ∈ es, e.type ≠ RingEntryType.EXIT) :
    db_worker_run (ring_put_all (ring_alloc 1024) (es ++ [exit_entry])) s
      = ⟨es.foldl apply_entry s, es.flatMap entry_ops, true⟩ := by
  have hwf0 := ringWF_alloc 1024 (by omega)
  have hwf := ringWF_put_all _ (es ++ [exit_entry]) hwf0
  rw [db_worker_run_eq _ s hwf, ring_toList_put_all _ _ hwf0, ring_toList_alloc,
    List.nil_append, db_worker_process_then_exit es s exit_entry hne rfl]

theorem exit_processed_after_all_commands_witness :
    (∀ e ∈ [block_entry 0 0 1 2 3 55, light_entry 0 0 1 2 3 9, commit_entry],
        e.type ≠ RingEntryType.EXIT) ∧
    db_worker_run (ring_put_all (ring_alloc 1024)
        ([block_entry 0 0 1 2 3 55, light_entry 0 0 1 2 3 9, commit_entry] ++ [exit_entry]))
        db_empty
      = ⟨[block_entry 0 0 1 2 3 55, light_entry 0 0 1 2 3 9, commit_entry].foldl
           apply_entry db_empty,
         [block_entry 0 0 1 2 3 55, light_entry 0 0 1 2 3 9, commit_entry].flatMap entry_ops,
         true⟩ :=
  ⟨by decide,
    exit_processed_after_all_commands
      [block_entry 0 0 1 2 3 55, light_entry 0 0 1 2 3 9, commit_entry] db_empty (by decide)⟩

/-- Claim C5: `TrimBlockDamage(p,q)` deletes exactly the `block_damage` rows
of chunk `(p,q)` whose damage value is exactly `0`; every non-zero-damage
row and every row of another chunk survives, in its original order. -/
theorem trim_deletes_exactly_zero_damage_rows (s : DbState) (p q : Int) (r : Row6) :
    (r ∈ (_db_block_damage_trim s p q).block_damage
        ↔ r ∈ s.block_damage ∧ ¬(r.w = 0 ∧ r.p = p ∧ r.q = q)) ∧
    (_db_block_damage_trim s p q).block_damage
        = s.block_damage.filter (fun r2 => !(r2.w == 0 && r2.p == p && r2.q == q)) ∧
    ((_db_block_damage_trim s p q).block_damage).Sublist s.block_damage ∧
    (_db_block_damage_trim s p q).block = s.block ∧
    (_db_block_damage_trim s p q).light = s.light ∧
    (_db_block_damage_trim s p q).key = s.key := by
  refine ⟨?_, rfl, List.filter_sublist _, rfl, rfl, rfl⟩
  show r ∈ s.block_damage.filter (fun r2 => !(r2.w == 0 && r2.p == p && r2.q == q)) ↔ _
  rw [List.mem_filter]
  simp only [Bool.not_eq_true', Bool.and_eq_true, beq_iff_eq, and_congr_right_iff]
  intro _
  constructor
  · intro hb
    intro hc
    rcases Bool.and_eq_false_iff.mp hb with h1 | h2
    · rcases Bool.and_eq_false_iff.mp h1 with h3 | h4
      · exact absurd hc.1 (by simpa using h3)
      · exact absurd hc.2.1 (by simpa using h4)
    · exact absurd hc.2.2 (by simpa using h2)
  · intro hc
    by_cases h1 : r.w = 0
    · by_cases h2 : r.p = p
      · have h3 : r.q ≠ q := fun hq3 => hc ⟨h1, h2, hq3⟩
        simp [h1, h2, h3]
      · simp [h2]
    · simp [h1]

/-- Claim C6: with persistence disabled, every dispatcher and worker entry
point returns immediately as a no-op: the global state (including the
queue) is unchanged, no store-adapter call is made, and reads report
zero/empty results. -/
theorem disabled_operations_are_noops (g : DbGlobal)
    (p q x y z w face key flying rx ry : Int) (text username token : String)
    (m : Map3) (sl : List SignRow)
    (h : g.db_enabled = false) :
    db_insert_block g p q x y z w = (g, []) ∧
    db_insert_light g p q x y z w = (g, []) ∧
    db_insert_block_damage g p q x y z w = (g, []) ∧
    db_trim_block_damage g p q = (g, []) ∧
    db_set_key g p q key = (g, []) ∧
    db_commit g = (g, []) ∧
    db_worker_start g = (g, []) ∧
    db_worker_stop g = (g, []) ∧
    db_insert_sign g p q x y z face text = (g, []) ∧
    db_delete_sign g x y z face = (g, []) ∧
    db_delete_signs g x y z = (g, []) ∧
    db_delete_all_signs g = (g, []) ∧
    db_save_state g x y z rx ry flying = (g, []) ∧
    db_load_state g = (0, none, []) ∧
    db_auth_set g username token = (g, []) ∧
    db_auth_get g username = (0, none, []) ∧
    db_load_blocks g m p q = (m, []) ∧
    db_load_lights g m p q = (m, []) ∧
    db_load_damage g m p q = (m, []) ∧
    db_load_signs g sl p q = (sl, []) ∧
    db_get_key g p q = (0, []) := by
  simp [db_insert_block, db_insert_light, db_insert_block_damage, db_trim_block_damage,
    db_set_key, db_commit, db_worker_start, db_worker_stop, db_insert_sign, db_delete_sign,
    db_delete_signs, db_delete_all_signs, db_save_state, db_load_state, db_auth_set,
    db_auth_get, db_load_blocks, db_load_lights, db_load_damage, db_load_signs, db_get_key, h]

theorem disabled_operations_are_noops_witness :
    g_disabled.db_enabled = false ∧
    (db_insert_block g_disabled 0 0 1 2 3 55 = (g_disabled, []) ∧
     db_insert_light g_disabled 0 0 1 2 3 9 = (g_disabled, []) ∧
     db_insert_block_damage g_disabled 0 0 1 2 3 4 = (g_disabled, []) ∧
     db_trim_block_damage g_disabled 0 0 = (g_disabled, []) ∧
     db_set_key g_disabled 0 0 7 = (g_disabled, []) ∧
     db_commit g_disabled = (g_disabled, []) ∧
     db_worker_start g_disabled = (g_disabled, []) ∧
     db_worker_stop g_disabled = (g_disabled, []) ∧
     db_insert_sign g_disabled 0 0 1 2 3 4 "hi" = (g_disabled, []) ∧
     db_delete_sign g_disabled 1 2 3 4 = (g_disabled, []) ∧
     db_delete_signs g_disabled 1 2 3 = (g_disabled, []) ∧
     db_delete_all_signs g_disabled = (g_disabled, []) ∧
     db_save_state g_disabled 1 2 3 4 5 6 = (g_disabled, []) ∧
     db_load_state g_disabled = (0, none, []) ∧
     db_auth_set g_disabled "u" "t" = (g_disabled, []) ∧
     db_auth_get g_disabled "u" = (0, none, []) ∧
     db_load_blocks g_disabled map_empty 0 0 = (map_empty, []) ∧
     db_load_lights g_disabled map_empty 0 0 = (map_empty, []) ∧
     db_load_damage g_disabled map_empty 0 0 = (map_empty, []) ∧
     db_load_signs g_disabled [] 0 0 = ([], []) ∧
     db_get_key g_disabled 0 0 = (0, [])) :=
  ⟨rfl, disabled_operations_are_noops g_disabled 0 0 1 2 3 55 4 7 6 4 5 "hi" "u" "t"
      map_empty [] rfl⟩

/-- Claim C7: `db_get_key` returns `0` both when no key row exists for
`(p,q)` and when the store query fails (`SQLITE_DONE` and any error step
outcome are indistinguishable to the caller), and a stored key is
returned only when the point query yields a row. -/
theorem get_key_zero_on_missing_or_error (g : DbGlobal) (p q : Int)
    (h : g.db_enabled = true) :
    (db_get_key g p q).1 = db_get_key_result true (get_key_step g.store.key p q) ∧
    (key_point_query g.store.key p q = none → (db_get_key g p q).1 = 0) ∧
    db_get_key_result true StepOutcome.done = 0 ∧
    db_get_key_result true StepOutcome.error = 0 ∧
    db_get_key_result true StepOutcome.done = db_get_key_result true StepOutcome.error ∧
    (∀ v : Int, db_get_key_result true (StepOutcome.row v) = v) ∧
    (∀ r : KeyRow, key_point_query g.store.key p q = some r →
        (db_get_key g p q).1 = r.key) := by
  refine ⟨?_, ?_, rfl, rfl, rfl, fun v => rfl, ?_⟩
  · rw [db_get_key, get_key_step, h]
    cases key_point_query g.store.key p q <;> rfl
  · intro hq
    simp [db_get_key, h, hq]
  · intro r hq
    simp [db_get_key, h, hq]

theorem get_key_zero_on_missing_or_error_witness :
    g_enabled.db_enabled = true ∧
    ((db_get_key g_enabled 1 2).1 = db_get_key_result true (get_key_step g_enabled.store.key 1 2) ∧
     (key_point_query g_enabled.store.key 1 2 = none → (db_get_key g_enabled 1 2).1 = 0) ∧
     db_get_key_result true StepOutcome.done = 0 ∧
     db_get_key_result true StepOutcome.error = 0 ∧
     db_get_key_result true StepOutcome.done = db_get_key_result true StepOutcome.error ∧
     (∀ v : Int, db_get_key_result true (StepOutcome.row v) = v) ∧
     (∀ r : KeyRow, key_point_query g_enabled.store.key 1 2 = some r →
        (db_get_key g_enabled 1 2).1 = r.key)) :=
  ⟨rfl, get_key_zero_on_missing_or_error g_enabled 1 2 rfl⟩

/-- Claim C8, amended: of the immediate read queries, `db_load_blocks`,
`db_load_lights` and `db_load_damage` execute while holding the
read-serialization mutex, while `db_load_signs` and `db_get_key` execute
their reads without taking it. -/
theorem immediate_reads_lock_discipline (g : DbGlobal) (m : Map3) (sl : List SignRow)
    (p q : Int) (h : g.db_enabled = true) :
    reads_locked 0 (db_load_blocks g m p q).2 = true ∧
    reads_locked 0 (db_load_lights g m p q).2 = true ∧
    reads_locked 0 (db_load_damage g m p q).2 = true ∧
    reads_locked 0 (db_load_signs g sl p q).2 = false ∧
    reads_locked 0 (db_get_key g p q).2 = false := by
  refine ⟨?_, ?_, ?_, ?_, ?_⟩
  · rw [db_load_blocks, h]
    rfl
  · rw [db_load_lights, h]
    rfl
  · rw [db_load_damage, h]
    rfl
  · rw [db_load_signs, h]
    rfl
  · rw [db_get_key, h]
    cases key_point_query g.store.key p q <;> rfl

theorem immediate_reads_lock_discipline_witness :
    g_enabled.db_enabled = true ∧
    (reads_locked 0 (db_load_blocks g_enabled map_empty 1 2).2 = true ∧
     reads_locked 0 (db_load_lights g_enabled map_empty 1 2).2 = true ∧
     reads_locked 0 (db_load_damage g_enabled map_empty 1 2).2 = true ∧
     reads_locked 0 (db_load_signs g_enabled [] 1 2).2 = false ∧
     reads_locked 0 (db_get_key g_enabled 1 2).2 = false) :=
  ⟨rfl, immediate_reads_lock_discipline g_enabled map_empty [] 1 2 rfl⟩

/-- Claim C8, counterexample to the claim as stated: `db_get_key` and
`db_load_signs` are immediate read queries, yet at this concrete enabled
state their traces contain a read with the read-serialization mutex not
held. -/
theorem get_key_read_unlocked_counterexample :
    (db_get_key g_enabled 1 2).2 = [Event.store_read "key"] ∧
    reads_locked 0 [Event.store_read "key"] = false ∧
    (db_load_signs g_enabled [] 1 2).2 = [Event.store_read "sign"] ∧
    reads_locked 0 [Event.store_read "sign"] = false :=
  ⟨rfl, rfl, rfl, rfl⟩

/-- Claim C9: `db_load_damage` writes into the destination map only rows
with non-zero damage — loading behaves exactly as if the zero-damage rows
of the chunk were absent — and it never sets a zero damage value: a zero
in the resulting map was already there. -/
theorem load_damage_skips_zero_rows (g : DbGlobal) (m : Map3) (p q : Int)
    (k : Int × Int × Int) (h : g.db_enabled = true) :
    (db_load_damage g m p q).1 k
      = load_damage_rows m
          ((chunk_rows g.store.block_damage p q).filter (fun r => !(r.w == 0))) k ∧
    ((db_load_damage g m p q).1 k = 0 → m k = 0) := by
  rw [db_load_damage, h]
  refine ⟨?_, ?_⟩
  · show load_damage_rows m (chunk_rows g.store.block_damage p q) k = _
    rw [load_damage_rows_filter]
  · intro hz
    exact load_damage_rows_zero _ m k hz

theorem load_damage_skips_zero_rows_witness :
    g_enabled.db_enabled = true ∧
    ((db_load_damage g_enabled map_empty 0 0).1 (1, 2, 3)
      = load_damage_rows map_empty
          ((chunk_rows g_enabled.store.block_damage 0 0).filter (fun r => !(r.w == 0)))
          (1, 2, 3) ∧
     ((db_load_damage g_enabled map_empty 0 0).1 (1, 2, 3) = 0 →
        map_empty (1, 2, 3) = 0)) :=
  ⟨rfl, load_damage_skips_zero_rows g_enabled map_empty 0 0 (1, 2, 3) rfl⟩

/-- Claim C10: `db_save_state` deletes every state row and inserts exactly
one, so the state table afterwards holds exactly one row (hence at most
one), and a subsequent `db_load_state` returns `1` with the just-saved
values. -/
theorem save_state_singleton_load_roundtrip (g : DbGlobal) (x y z rx ry flying : Int)
    (h : g.db_enabled = true) :
    (db_save_state g x y z rx ry flying).1.store.state = [⟨x, y, z, rx, ry, flying⟩] ∧
    ((db_save_state g x y z rx ry flying).1.store.state).length ≤ 1 ∧
    db_load_state (db_save_state g x y z rx ry flying).1
      = (1, some ⟨x, y, z, rx, ry, flying⟩, [Event.store_read "state"]) := by
  rw [db_save_state, h]
  refine ⟨rfl, by simp, ?_⟩
  rw [db_load_state]
  simp [h]

theorem save_state_singleton_load_roundtrip_witness :
    g_enabled.db_enabled = true ∧
    ((db_save_state g_enabled 1 2 3 4 5 6).1.store.state = [⟨1, 2, 3, 4, 5, 6⟩] ∧
     ((db_save_state g_enabled 1 2 3 4 5 6).1.store.state).length ≤ 1 ∧
     db_load_state (db_save_state g_enabled 1 2 3 4 5 6).1
      = (1, some ⟨1, 2, 3, 4, 5, 6⟩, [Event.store_read "state"])) :=
  ⟨rfl, save_state_singleton_load_roundtrip g_enabled 1 2 3 4 5 6 rfl⟩

end Miscraft
